import Mathlib

/-
  Verification of the Autoscope backend's inspection-request lifecycle and
  rating-aggregation engine.

  The definitions below are a shallow embedding of the JavaScript source:
    - src/config/constants.js            (status vocabulary, exclusion list)
    - models/Inspection.js               (schema setters, validators, pre-save hook)
    - models/InspectionRequest.js        (request schema)
    - models/Counter.js                  (atomic sequence counter)
    - src/services/inspectionRequestService.js  (lifecycle operations)
    - src/services/checklistService.js   (startInspection, createInspection linkage)

  JavaScript numbers are modelled as rationals (ℚ); Math.round is modelled
  exactly for the non-negative values that occur here (round half away from
  zero equals floor (x + 1/2) on non-negatives).  JavaScript strings are
  modelled as Lean strings, with character-level operations on the underlying
  character lists.  Timestamps (Date values) are modelled as abstract Nat
  instants.  Mongoose semantics that matter here: field setters run on
  assignment, document validation runs before user pre-save hooks, and
  assignments to paths that are not declared in the schema are not persisted
  (strict mode).
-/

namespace Autoscope

/-! ## Rating engine: constants.js and the Inspection model -/

/-- Checklist item status vocabulary, CHECKLIST_STATUS in src/config/constants.js
(the flexible seven-value variant, the one imported by the live Inspection model
and the one whose exports, such as S3_BUCKET, the rest of the code requires). -/
inductive ChecklistStatus where
  | excellent
  | good
  | average
  | poor
  | fair
  | notChecked
  | notApplicable
deriving DecidableEq

/-- STATUS_EXCLUDED_FROM_AVERAGE in src/config/constants.js: statuses excluded
from the type average. -/
def STATUS_EXCLUDED_FROM_AVERAGE : List ChecklistStatus :=
  [.notApplicable, .notChecked]

/-- JS Math.round for the non-negative rationals produced by the rating engine:
floor (q + 1/2), matching round-half-up. -/
def jsRound (q : ℚ) : ℤ := Int.floor (q + 1/2)

/-- Math.round (q * 100) / 100, the two-decimal rounding used throughout the
Inspection model. -/
def round2 (q : ℚ) : ℚ := (jsRound (q * 100) : ℚ) / 100

/-- Schema setter of averageRating and overallRating in models/Inspection.js
(lines 231-234 and 305-308): round the assigned value to 2 decimal places. -/
def ratingSetter (q : ℚ) : ℚ := round2 q

/-- One checklist item response, checklistItemResponseSchema in
models/Inspection.js.  The rating setter (null / NaN to 0, then clamp to
[0,5]) runs upstream at assignment time, so the stored rating is a plain
rational. -/
structure ChecklistItemResponse where
  position : Nat
  label : String
  status : ChecklistStatus
  rating : ℚ
  remarks : String
  photos : List String
deriving DecidableEq

/-- One type block, typeInspectionSchema in models/Inspection.js. -/
structure TypeInspection where
  typeName : String
  checklistItems : List ChecklistItemResponse
  overallRemarks : String
  overallPhotos : List String
  videos : List String
  averageRating : ℚ
deriving DecidableEq

/-- Inspection record status enum, models/Inspection.js line 310-315. -/
inductive InspectionStatus where
  | draft
  | completed
  | submitted
deriving DecidableEq

/-- An Inspection document, inspectionSchema in models/Inspection.js.
Fields irrelevant to every claim (vehicleInfo, inspectionDate, the Mixed
detail blobs) are omitted. -/
structure Inspection where
  checklistTemplateId : Nat
  inspectorId : Nat
  types : List TypeInspection
  overallRating : ℚ
  status : InspectionStatus
  completedAt : Option Nat
  notes : String
deriving DecidableEq

/-- VIDEO_ALLOWED_TYPES in src/config/constants.js. -/
def VIDEO_ALLOWED_TYPES : List String := ["Interior", "Exterior"]

/-- Validators of checklistItemResponseSchema: remarks maxlength 1000,
at most 20 photos, rating within [0,5]. -/
def validateChecklistItem (i : ChecklistItemResponse) : Bool :=
  i.remarks.length ≤ 1000 && i.photos.length ≤ 20 &&
    decide (0 ≤ i.rating) && decide (i.rating ≤ 5)

/-- Validators of typeInspectionSchema: at least one checklist item,
item-level validators, overallRemarks maxlength 2000, at most 30 overall
photos, the video rule, and averageRating within [0,5]. -/
def validateTypeInspection (t : TypeInspection) : Bool :=
  !t.checklistItems.isEmpty &&
    t.checklistItems.all validateChecklistItem &&
    t.overallRemarks.length ≤ 2000 &&
    t.overallPhotos.length ≤ 30 &&
    (if VIDEO_ALLOWED_TYPES.contains t.typeName then t.videos.length ≤ 2
     else t.videos.isEmpty) &&
    decide (0 ≤ t.averageRating) && decide (t.averageRating ≤ 5)

/-- Document validation of inspectionSchema: at least one type, type-level
validators, overallRating within [0,5], notes maxlength 5000.  Mongoose runs
this before the user pre-save hook; a failing document is never persisted. -/
def validateInspection (insp : Inspection) : Bool :=
  !insp.types.isEmpty &&
    insp.types.all validateTypeInspection &&
    decide (0 ≤ insp.overallRating) && decide (insp.overallRating ≤ 5) &&
    insp.notes.length ≤ 5000

/-- Per-type part of the pre-save hook (models/Inspection.js lines 384-396):
filter out the excluded statuses, average the rest, Math.round to 2 decimals
(the schema setter rounds the assigned value once more, idempotently), or 0
when every item is excluded.  The guard on a non-empty item list mirrors the
source; the expression Number(item.rating) || 0 is the identity on the stored
rational ratings. -/
def recomputeTypeAverage (t : TypeInspection) : TypeInspection :=
  if t.checklistItems.length > 0 then
    let included := t.checklistItems.filter
      (fun item => !(STATUS_EXCLUDED_FROM_AVERAGE.contains item.status))
    if included.length > 0 then
      let totalRating := included.foldl (fun acc item => acc + item.rating) 0
      { t with averageRating :=
          ratingSetter (round2 (totalRating / (included.length : ℚ))) }
    else
      { t with averageRating := ratingSetter 0 }
  else t

/-- The pre-save hook of inspectionSchema (models/Inspection.js lines 382-410):
recompute every type average, recompute the overall rating as the mean of the
type averages (rounded by the overallRating setter), and stamp completedAt on
the first save in a completed or submitted status. -/
def preSaveHook (now : Nat) (insp : Inspection) : Inspection :=
  let types := insp.types.map recomputeTypeAverage
  let overallRating :=
    if types.length > 0 then
      ratingSetter ((types.foldl (fun acc t => acc + t.averageRating) 0)
        / (types.length : ℚ))
    else insp.overallRating
  let completedAt :=
    if (insp.status = .completed ∨ insp.status = .submitted)
        ∧ insp.completedAt = none
    then some now else insp.completedAt
  { insp with types := types, overallRating := overallRating,
              completedAt := completedAt }

/-- Saving an Inspection document: Mongoose validation first (it is the first
pre-save middleware), then the user pre-save hook, then the persist.  The
returned document is what the database stores. -/
def saveInspection (now : Nat) (insp : Inspection) : Except String Inspection :=
  if validateInspection insp then .ok (preSaveHook now insp)
  else .error "ValidationError"

/-! ## Rating engine, specification side.

These definitions restate the spec's rating algorithm (spec sections 3 and
4.3) in its own words, to be compared with the embedded code above. -/

/-- Spec section 4.3 step 1: the included items of a type block are those
whose status is neither Not Checked nor Not Applicable. -/
def specIncludedItems (items : List ChecklistItemResponse) :
    List ChecklistItemResponse :=
  items.filter (fun i =>
    decide (i.status ≠ .notChecked ∧ i.status ≠ .notApplicable))

/-- Spec section 4.3 step 2: type average is the arithmetic mean of the
included items' ratings rounded to 2 decimals, or 0 when no item is
included. -/
def typeAverageSpec (items : List ChecklistItemResponse) : ℚ :=
  let inc := specIncludedItems items
  if inc.isEmpty then 0
  else round2 ((inc.map (fun i => i.rating)).sum / (inc.length : ℚ))

/-- Spec section 4.3 step 3: overall rating is the arithmetic mean of the
type averages, each type weighted equally, rounded to 2 decimals; 0 with no
types. -/
def overallRatingSpec (types : List TypeInspection) : ℚ :=
  let avgs := types.map (fun t => typeAverageSpec t.checklistItems)
  if avgs.isEmpty then 0
  else round2 (avgs.sum / (avgs.length : ℚ))

/-- Erase the client-supplied derived-rating fields of a document, leaving
everything the rating engine actually reads.  Two documents with the same
erasure differ at most in their supplied averageRating / overallRating
values. -/
def suppliedRatingsErased (insp : Inspection) : Inspection :=
  { insp with
    overallRating := 0,
    types := insp.types.map (fun t => { t with averageRating := 0 }) }

/-! ## Identity store and request lifecycle -/

/-- USER_ROLES in src/config/constants.js. -/
inductive Role where
  | admin
  | inspector
  | user
deriving DecidableEq

/-- USER_STATUS in src/config/constants.js. -/
inductive UserStatus where
  | active
  | blocked
  | inactive
deriving DecidableEq

/-- The user fields read and written by the lifecycle operations
(models/User.js): role, status and the availability flag. -/
structure UserRec where
  role : Role
  status : UserStatus
  is_assigned : Bool
deriving DecidableEq

/-- The user collection, keyed by user id. -/
abbrev Users := List (Nat × UserRec)

/-- User.findById. -/
def findUser (users : Users) (id : Nat) : Option UserRec :=
  (List.find? (fun p => p.1 = id) users).map (fun p => p.2)

/-- User.findByIdAndUpdate(id, is_assigned flag): a no-op when the id is
absent, as in Mongoose. -/
def setAssigned (users : Users) (id : Nat) (b : Bool) : Users :=
  List.map (fun p => if p.1 = id then (p.1, { p.2 with is_assigned := b }) else p)
    users

/-- Request status enum of inspectionRequestSchema
(models/InspectionRequest.js line 113-118). -/
inductive ReqStatus where
  | pending
  | assigned
  | inProgress
  | completed
  | cancelled
deriving DecidableEq

/-- Status strings as stored in the database, used verbatim in error
messages. -/
def reqStatusString : ReqStatus → String
  | .pending => "pending"
  | .assigned => "assigned"
  | .inProgress => "in_progress"
  | .completed => "completed"
  | .cancelled => "cancelled"

/-- An InspectionRequest document (models/InspectionRequest.js).  Only schema
paths are persisted: the service writes to inspectionStartTime,
inspectionEndTime and timeTaken target paths that the schema does not
declare, so under Mongoose strict mode they are dropped on save and read back
as undefined; they are therefore absent here.  vehicleInfo, location and the
schedule fields are never read by the lifecycle guards and are omitted. -/
structure Request where
  requestId : String
  userId : Nat
  status : ReqStatus
  assignedInspectorId : Option Nat
  assignedAt : Option Nat
  adminApprovedAt : Option Nat
  inspectionId : Option Nat
  notes : String
  cancelledAt : Option Nat
  cancelledReason : Option String
deriving DecidableEq

/-- A freshly created request, as persisted by
InspectionRequestService.createRequest: status pending, every other
lifecycle field at its schema default. -/
def freshRequest (userId : Nat) (requestId : String) : Request :=
  { requestId := requestId
    userId := userId
    status := .pending
    assignedInspectorId := none
    assignedAt := none
    adminApprovedAt := none
    inspectionId := none
    notes := ""
    cancelledAt := none
    cancelledReason := none }

/-- Error taxonomy of src/utils/errors.js, restricted to the classes the
lifecycle operations raise.  The spec's InvalidState kind corresponds to
BadRequestError (400) in the code. -/
inductive SvcError where
  | notFound (msg : String)
  | forbidden (msg : String)
  | badRequest (msg : String)
  | database (msg : String)
deriving DecidableEq

/-- JS String.prototype.trim on the character list (drop whitespace at both
ends). -/
def jsTrim (s : String) : String :=
  String.mk
    (((s.data.dropWhile Char.isWhitespace).reverse.dropWhile
        Char.isWhitespace).reverse)

/-- JS String.prototype.slice(0, n). -/
def jsSlice (n : Nat) (s : String) : String := String.mk (s.data.take n)

/-- InspectionRequestService.approveRequest
(inspectionRequestService.js lines 637-679), acting on a found request:
admin only, valid only while the request is pending, and its sole effect is
stamping adminApprovedAt (an audit marker; status is untouched). -/
def approveRequest (role : Role) (now : Nat) (r : Request) :
    Except SvcError Request :=
  if role ≠ .admin then
    .error (.forbidden "Only admins can approve inspection requests")
  else if r.status ≠ .pending then
    .error (.badRequest
      ("Request can only be approved when status is pending. Current status: "
        ++ reqStatusString r.status))
  else
    .ok { r with adminApprovedAt := some now }

/-- InspectionRequestService.rejectRequest
(inspectionRequestService.js lines 688-738), acting on a found request:
admin only, rejected only when already cancelled (completed is not guarded),
sets status cancelled with cancelledAt and the trimmed reason sliced to 500
characters (an empty reason is assigned as undefined, i.e. the path is
unset), clears the assigned inspector's availability flag — but does not
clear the request's assignedInspectorId reference. -/
def rejectRequest (role : Role) (reason : Option String) (now : Nat)
    (r : Request) (users : Users) : Except SvcError (Request × Users) :=
  if role ≠ .admin then
    .error (.forbidden "Only admins can reject inspection requests")
  else if r.status = .cancelled then
    .error (.badRequest "Request is already cancelled")
  else
    let reasonS := jsSlice 500 (jsTrim (reason.getD ""))
    let users1 :=
      match r.assignedInspectorId with
      | some i => setAssigned users i false
      | none => users
    .ok ({ r with
            status := .cancelled
            cancelledAt := some now
            cancelledReason := if reasonS = "" then none else some reasonS },
          users1)

/-- InspectionRequestService.assignInspector
(inspectionRequestService.js lines 565-629), acting on a found request:
admin only, inspector id required (none models a missing or blank id), the
target must exist with role inspector and status active.  There is no guard
on the request's status: assignment succeeds from any status, terminal ones
included.  A previously assigned different inspector is freed before the new
inspector's flag is set; a pending request advances to assigned, any other
status is left unchanged. -/
def assignInspector (role : Role) (body : Option Nat) (now : Nat)
    (r : Request) (users : Users) : Except SvcError (Request × Users) :=
  if role ≠ .admin then
    .error (.forbidden "Only admins can assign inspectors to requests")
  else
    match body with
    | none => .error (.badRequest "Inspector ID is required")
    | some inspectorId =>
      match findUser users inspectorId with
      | none => .error (.notFound "Inspector not found")
      | some inspector =>
        if inspector.role ≠ .inspector then
          .error (.badRequest "Selected user is not an inspector")
        else if inspector.status ≠ .active then
          .error (.badRequest "Inspector is not active and cannot be assigned")
        else
          let users1 :=
            match r.assignedInspectorId with
            | some prev =>
                if prev ≠ inspectorId then setAssigned users prev false
                else users
            | none => users
          let r1 :=
            { r with
              assignedInspectorId := some inspectorId
              assignedAt := some now
              status := if r.status = .pending then .assigned else r.status }
          .ok (r1, setAssigned users1 inspectorId true)

/-- ChecklistService.startInspection (checklistService.js lines 478-523),
acting on a found request.  The permission check dereferences
assignedInspectorId unconditionally (line 488:
inspectionRequest.assignedInspectorId.toString()); on a request with no
assigned inspector this throws a TypeError, which the catch block wraps as
DatabaseError, before any guard or mutation runs.  The status guard allows
assigned or pending only.  The already-started guard of line 498 reads
inspectionStartTime, which is not a schema path and is always undefined on a
freshly loaded document, so it never fires; the start-time assignment of
line 504 is likewise not persisted.  The persisted effect is the status
transition to in_progress. -/
def startInspection (currentUserId : Nat) (_now : Nat) (r : Request) :
    Except SvcError Request :=
  match r.assignedInspectorId with
  | none => .error (.database "Failed to start inspection request")
  | some inspectorId =>
    if inspectorId ≠ currentUserId then
      .error (.forbidden
        "You do not have permission to start this inspection request")
    else if ¬(r.status = .assigned ∨ r.status = .pending) then
      .error (.badRequest
        ("Cannot start. Request status is '" ++ reqStatusString r.status
          ++ "'. Expected 'assigned' or 'pending'."))
    else
      .ok { r with status := .inProgress }

/-- Request-linkage step of ChecklistService.createInspection
(checklistService.js lines 398-447): after the Inspection document is
created, a request matching the given id with the caller as its assigned
inspector and a status among assigned, in_progress or pending gets
inspectionId set, and when the new inspection is completed or submitted the
request advances to completed.  When the findOne filter matches nothing the
request is left untouched (a warning is logged).  The inspectionEndTime and
timeTaken writes target non-schema paths and are not persisted. -/
def linkInspectionOnCreate (inspectorId inspectionOid : Nat)
    (inspStatus : InspectionStatus) (r : Request) : Request :=
  if r.assignedInspectorId = some inspectorId
      ∧ (r.status = .assigned ∨ r.status = .inProgress ∨ r.status = .pending)
  then
    if inspStatus = .completed ∨ inspStatus = .submitted then
      { r with inspectionId := some inspectionOid, status := .completed }
    else
      { r with inspectionId := some inspectionOid }
  else r

/-- One lifecycle operation together with its caller data, as invoked through
the HTTP layer. -/
inductive LifecycleOp where
  | assignOp (callerRole : Role) (inspectorId : Option Nat) (now : Nat)
  | approveOp (callerRole : Role) (now : Nat)
  | rejectOp (callerRole : Role) (reason : Option String) (now : Nat)
  | startOp (callerId : Nat) (now : Nat)
  | submitOp (callerId : Nat) (inspectionOid : Nat)
      (inspStatus : InspectionStatus)

/-- The persistent state a single request's lifecycle touches: the request
document and the user collection. -/
structure SvcState where
  request : Request
  users : Users
deriving DecidableEq

/-- Apply one operation; an operation that raises leaves the state unchanged
(every throw in the source happens before its save). -/
def applyOp (s : SvcState) (op : LifecycleOp) : SvcState :=
  match op with
  | .assignOp role body now =>
    match assignInspector role body now s.request s.users with
    | .ok (r, u) => ⟨r, u⟩
    | .error _ => s
  | .approveOp role now =>
    match approveRequest role now s.request with
    | .ok r => ⟨r, s.users⟩
    | .error _ => s
  | .rejectOp role reason now =>
    match rejectRequest role reason now s.request s.users with
    | .ok (r, u) => ⟨r, u⟩
    | .error _ => s
  | .startOp uid now =>
    match startInspection uid now s.request with
    | .ok r => ⟨r, s.users⟩
    | .error _ => s
  | .submitOp uid oid st =>
    ⟨linkInspectionOnCreate uid oid st s.request, s.users⟩

/-- Run a sequence of lifecycle operations from a state. -/
def runOps (s : SvcState) (ops : List LifecycleOp) : SvcState :=
  ops.foldl applyOp s

/-! ## Sequential ID generator -/

/-- The vehicleInfo fields the ID generator reads.  An absent make or model
is modelled as the empty string, matching the JS falsiness test. -/
structure VehicleInfo where
  make : String
  model : String
deriving DecidableEq

/-- JS toUpperCase, character by character (the inputs of interest are
ASCII). -/
def jsUpper (s : String) : String := String.mk (s.data.map Char.toUpper)

/-- Characters kept by the sanitiser regexp replace(/[^A-Z0-9]/g, ''). -/
def keepUpperAlnum (c : Char) : Bool :=
  (decide ('A' ≤ c) && decide (c ≤ 'Z')) ||
    (decide ('0' ≤ c) && decide (c ≤ '9'))

/-- Model component of _generateRequestId
(inspectionRequestService.js line 32): uppercase, strip everything outside
A-Z0-9, keep at most 20 characters, and fall back to UNK when the input or
the sanitised result is empty. -/
def sanitizeModel (model : String) : String :=
  let base := if model = "" then "UNK" else model
  let s := String.mk (((jsUpper base).data.filter keepUpperAlnum).take 20)
  if s = "" then "UNK" else s

/-- Make component of _generateRequestId
(inspectionRequestService.js line 34): uppercase, first 3 characters,
right-padded with X. -/
def makeCode (make : String) : String :=
  let base := if make = "" then "UNK" else make
  let t := (jsUpper base).data.take 3
  String.mk (t ++ List.replicate (3 - t.length) 'X')

/-- Decimal digits of a natural number, structurally (fuel-indexed so the
kernel can evaluate it); digits emitted most significant first, as
JS String(n) renders them. -/
def natDecimalAux : Nat → Nat → List Char
  | 0, _ => []
  | fuel + 1, n =>
    if n < 10 then [Nat.digitChar n]
    else natDecimalAux fuel (n / 10) ++ [Nat.digitChar (n % 10)]

/-- JS String(n) for a natural number. -/
def natDecimal (n : Nat) : List Char := natDecimalAux (n + 1) n

/-- Sequence component of _generateRequestId
(inspectionRequestService.js line 36): String(sequence).padStart(3, '0'). -/
def seqCode (sequence : Nat) : String :=
  let d := natDecimal sequence
  String.mk (List.replicate (3 - d.length) '0' ++ d)

/-- InspectionRequestService._generateRequestId
(inspectionRequestService.js lines 30-37). -/
def generateRequestId (sequence : Nat) (v : VehicleInfo) : String :=
  sanitizeModel v.model ++ "_" ++ makeCode v.make ++ "_" ++ seqCode sequence

/-- Counter collection state: one sequence value per counter name
(counterSchema has a unique index on name). -/
abbrev Counters := List (String × Nat)

/-- Current value of a named counter; a missing counter reads as the schema
default 0. -/
def counterValue (cs : Counters) (name : String) : Nat :=
  match List.find? (fun p => p.1 = name) cs with
  | some p => p.2
  | none => 0

/-- Counter.getNextSequence (models/Counter.js lines 43-64): atomic
findOneAndUpdate with an increment, upserting the counter at its default 0
before the increment when it does not exist, and returning the incremented
value. -/
def getNextSequence (cs : Counters) (name : String) : Nat × Counters :=
  match List.find? (fun p => p.1 = name) cs with
  | some p =>
      (p.2 + 1,
        List.map (fun q => if q.1 = name then (q.1, q.2 + 1) else q) cs)
  | none => (1, (name, 1) :: cs)

/-- InspectionRequestService._getNextRequestId
(inspectionRequestService.js lines 67-75): every request draws from the one
counter named inspectionRequest, whatever the vehicle make. -/
def getNextRequestId (cs : Counters) (v : VehicleInfo) : String × Counters :=
  (generateRequestId (getNextSequence cs "inspectionRequest").1 v,
    (getNextSequence cs "inspectionRequest").2)

/-- Sequence values produced by k successive getNextSequence calls on the
inspectionRequest counter. -/
def issueSeqs (cs : Counters) : Nat → List Nat
  | 0 => []
  | k + 1 =>
    (getNextSequence cs "inspectionRequest").1
      :: issueSeqs (getNextSequence cs "inspectionRequest").2 k

/-! ## createRequest and its duplicate-key retry loop -/

/-- Outcome of one InspectionRequest.create call against the database:
success, an E11000 duplicate-key error on requestId, or any other
failure. -/
inductive CreateOutcome where
  | success
  | dupRequestId
  | otherFailure
deriving DecidableEq

/-- Raw JS-level errors travelling between the inner create loop and the
outer catch of createRequest. -/
inductive JsError where
  | typeError
  | dupKeyRequestId
  | otherError
deriving DecidableEq

/-- Terminal result classes of createRequest: a DatabaseError raised by the
outer catch, a raw error propagating uncaught out of the catch block's own
create call, or a ConflictError (present in src/utils/errors.js; listed so
that its absence from every execution can be stated). -/
inductive CreateError where
  | databaseError (msg : String)
  | rawError (e : JsError)
  | conflictError (msg : String)
deriving DecidableEq

/-- The while loop of InspectionRequestService.createRequest
(inspectionRequestService.js lines 144-190), parameterised by the per-call
database outcome oracle.  Faithful to the source, including its defect:
requestId is declared const at line 140, so the retry branch's assignment
requestId = newRequestId at line 183 throws a TypeError (after the fresh id
was already drawn from the counter).  When retries reaches 0 the code
instead performs one final unguarded create with a fresh id, whose failure
propagates raw out of the loop; and if the loop were ever exited without a
successful create, request would be undefined and the populate call at
line 192 would throw a TypeError.  Returns the persisted requestId on
success together with the next call index and counter state. -/
def createLoop (outcomes : Nat → CreateOutcome) (v : VehicleInfo) :
    Nat → Nat → Counters → String →
    Except JsError String × Nat × Counters
  | 0, callIdx, cs, _ => (.error .typeError, callIdx, cs)
  | retries + 1, callIdx, cs, requestId =>
    match outcomes callIdx with
    | .success => (.ok requestId, callIdx + 1, cs)
    | .otherFailure => (.error .otherError, callIdx + 1, cs)
    | .dupRequestId =>
      if retries = 0 then
        match outcomes (callIdx + 1) with
        | .success =>
            (.ok (getNextRequestId cs v).1, callIdx + 2,
              (getNextRequestId cs v).2)
        | .dupRequestId =>
            (.error .dupKeyRequestId, callIdx + 2, (getNextRequestId cs v).2)
        | .otherFailure =>
            (.error .otherError, callIdx + 2, (getNextRequestId cs v).2)
      else
        (.error .typeError, callIdx + 1, (getNextRequestId cs v).2)

/-- InspectionRequestService.createRequest from the point where the
requester has been resolved (inspectionRequestService.js lines 139-239):
draw the initial id, run the create loop with retries = 3, and apply the
outer catch.  The outer catch wraps a TypeError or any other non-duplicate
error as DatabaseError('Failed to create inspection request'); an E11000
escaping the loop takes the user-relookup path, which finds the requester
(it was resolved moments earlier) and performs one more create whose
failure propagates uncaught. -/
def createRequestCore (outcomes : Nat → CreateOutcome) (cs : Counters)
    (v : VehicleInfo) : Except CreateError String :=
  match createLoop outcomes v 3 0 (getNextRequestId cs v).2
      (getNextRequestId cs v).1 with
  | (.ok rid, _, _) => .ok rid
  | (.error e, callIdx, cs2) =>
    match e with
    | .dupKeyRequestId =>
      match outcomes callIdx with
      | .success => .ok (getNextRequestId cs2 v).1
      | .dupRequestId => .error (.rawError .dupKeyRequestId)
      | .otherFailure => .error (.rawError .otherError)
    | .typeError =>
      .error (.databaseError "Failed to create inspection request")
    | .otherError =>
      .error (.databaseError "Failed to create inspection request")

/-! ## Invariant predicates and concrete fixtures -/

/-- The part of the spec's assignedInspector invariant that the code does
maintain: a request in status assigned, in_progress or completed always has
an inspector reference, and a pending request never does.  The converse of
the first conjunct fails (a cancelled request can retain its inspector). -/
def ReqInv (r : Request) : Prop :=
  ((r.status = .assigned ∨ r.status = .inProgress ∨ r.status = .completed) →
      r.assignedInspectorId ≠ none)
    ∧ (r.status = .pending → r.assignedInspectorId = none)

/-- Fixture: a checklist item response. -/
def itemEx (pos : Nat) (st : ChecklistStatus) (q : ℚ) :
    ChecklistItemResponse :=
  { position := pos, label := "", status := st, rating := q,
    remarks := "", photos := [] }

/-- Fixture: a type block with supplied averageRating 0. -/
def typeEx (name : String) (items : List ChecklistItemResponse) :
    TypeInspection :=
  { typeName := name, checklistItems := items, overallRemarks := "",
    overallPhotos := [], videos := [], averageRating := 0 }

/-- Fixture: an inspection document. -/
def inspEx (types : List TypeInspection) (overall : ℚ)
    (status : InspectionStatus) : Inspection :=
  { checklistTemplateId := 1, inspectorId := 2, types := types,
    overallRating := overall, status := status, completedAt := none,
    notes := "" }

/-- Fixture for C2: one type with items Excellent(5), Poor(1), Not
Checked(0) and one type whose every item is Not Applicable. -/
def exC2 : Inspection :=
  inspEx
    [typeEx "Engine"
        [itemEx 1 .excellent 5, itemEx 2 .poor 1, itemEx 3 .notChecked 0],
      typeEx "Interior" [itemEx 1 .notApplicable 0]]
    0 .draft

/-- Fixture for C3: one type with a single Excellent item (average 5.00) and
one type with three Poor items (average 1.00). -/
def exC3 : Inspection :=
  inspEx
    [typeEx "Exterior" [itemEx 1 .excellent 5],
      typeEx "Engine" [itemEx 1 .poor 1, itemEx 2 .poor 1, itemEx 3 .poor 1]]
    0 .draft

/-- Fixture for C6: items say Good(4); the client supplies averageRating 1
and overallRating 5. -/
def exC6a : Inspection :=
  inspEx [{ typeEx "Engine" [itemEx 1 .good 4] with averageRating := 1 }]
    5 .draft

/-- Fixture for C6: the same items as exC6a with different client-supplied
averageRating 3 and overallRating 2. -/
def exC6b : Inspection :=
  inspEx [{ typeEx "Engine" [itemEx 1 .good 4] with averageRating := 3 }]
    2 .draft

/-- Fixture: two active, free inspectors with ids 1 and 2. -/
def usersAB : Users :=
  [(1, ⟨.inspector, .active, false⟩), (2, ⟨.inspector, .active, false⟩)]

/-- Fixture for the C1 counterexample: create, assign inspector 1, then
reject. -/
def c1Trace : SvcState :=
  runOps ⟨freshRequest 7 "CAMRY_TOY_001", usersAB⟩
    [.assignOp .admin (some 1) 10, .rejectOp .admin none 20]

/-- Fixture for C4: a completed request with inspector 1 still assigned. -/
def c4Req : Request :=
  { freshRequest 7 "CIVIC_HON_002" with
    status := .completed, assignedInspectorId := some 1, assignedAt := some 5 }

/-- Fixture for C5: a cancelled (terminal) request with no inspector. -/
def c5Req : Request :=
  { freshRequest 7 "MODEL3_TES_003" with
    status := .cancelled, cancelledAt := some 8 }

/-- Fixture for the C5 witness: a request currently assigned to
inspector 1. -/
def c5AssignedReq : Request :=
  { freshRequest 7 "ACCORD_HON_004" with
    status := .assigned, assignedInspectorId := some 1, assignedAt := some 5 }

/-! ## Helper lemmas: rounding and rating arithmetic -/

theorem round2_idem (q : ℚ) : round2 (round2 q) = round2 q := by
  unfold round2 jsRound
  rw [div_mul_cancel₀ _ (by norm_num : (100 : ℚ) ≠ 0)]
  rw [Int.floor_int_add]
  norm_num

theorem round2_zero : round2 0 = 0 := by
  unfold round2 jsRound
  norm_num

theorem ratingSetter_round2 (q : ℚ) : ratingSetter (round2 q) = round2 q := by
  unfold ratingSetter
  exact round2_idem q

theorem includedFilter_eq (items : List ChecklistItemResponse) :
    items.filter
        (fun item => !(STATUS_EXCLUDED_FROM_AVERAGE.contains item.status))
      = specIncludedItems items := by
  unfold specIncludedItems
  apply List.filter_congr
  intro i _
  rcases i with ⟨p, l, s, q, rem, ph⟩
  cases s <;> rfl

theorem foldl_add_rating (l : List ChecklistItemResponse) (a : ℚ) :
    l.foldl (fun acc item => acc + item.rating) a
      = a + (l.map (fun i => i.rating)).sum := by
  induction l generalizing a with
  | nil => simp
  | cons x xs ih => simp [ih, add_assoc]

theorem foldl_add_average (l : List TypeInspection) (a : ℚ) :
    l.foldl (fun acc t => acc + t.averageRating) a
      = a + (l.map (fun t => t.averageRating)).sum := by
  induction l generalizing a with
  | nil => simp
  | cons x xs ih => simp [ih, add_assoc]

theorem recompute_avg_eq_spec (t : TypeInspection)
    (h : t.checklistItems ≠ []) :
    (recomputeTypeAverage t).averageRating
      = typeAverageSpec t.checklistItems := by
  have hlen : 0 < t.checklistItems.length := List.length_pos.mpr h
  unfold recomputeTypeAverage typeAverageSpec
  rw [includedFilter_eq]
  rw [if_pos hlen]
  by_cases hinc : specIncludedItems t.checklistItems = []
  · simp [hinc, ratingSetter, round2_zero]
  · have hpos : 0 < (specIncludedItems t.checklistItems).length :=
      List.length_pos.mpr hinc
    simp only [if_pos hpos, List.isEmpty_iff, hinc, if_neg,
      ratingSetter_round2, foldl_add_rating, zero_add]
    simp

theorem recompute_preserves_items (t : TypeInspection) :
    (recomputeTypeAverage t).checklistItems = t.checklistItems := by
  unfold recomputeTypeAverage
  split
  · dsimp only
    split <;> rfl
  · rfl

theorem validateInspection_parts (insp : Inspection)
    (h : validateInspection insp = true) :
    insp.types ≠ [] ∧ ∀ t ∈ insp.types, t.checklistItems ≠ [] := by
  simp only [validateInspection, Bool.and_eq_true, List.all_eq_true,
    Bool.not_eq_true', List.isEmpty_eq_false] at h
  obtain ⟨⟨⟨⟨h1, h2⟩, _⟩, _⟩, _⟩ := h
  refine ⟨h1, fun t ht => ?_⟩
  have := h2 t ht
  simp only [validateTypeInspection, Bool.and_eq_true, Bool.not_eq_true',
    List.isEmpty_eq_false] at this
  exact this.1.1.1.1.1.1

theorem preSaveHook_types_avg (now : Nat) (insp : Inspection)
    (h : ∀ t ∈ insp.types, t.checklistItems ≠ []) :
    (preSaveHook now insp).types.map (fun t => t.averageRating)
      = insp.types.map (fun t => typeAverageSpec t.checklistItems) := by
  show (insp.types.map recomputeTypeAverage).map (fun t => t.averageRating)
      = _
  rw [List.map_map]
  exact List.map_congr_left fun t ht => recompute_avg_eq_spec t (h t ht)

theorem preSaveHook_overall (now : Nat) (insp : Inspection)
    (hne : insp.types ≠ [])
    (h : ∀ t ∈ insp.types, t.checklistItems ≠ []) :
    (preSaveHook now insp).overallRating = overallRatingSpec insp.types := by
  have hlen : (insp.types.map recomputeTypeAverage).length > 0 := by
    simpa [List.length_pos] using hne
  have hmap :
      (insp.types.map recomputeTypeAverage).map (fun t => t.averageRating)
        = insp.types.map (fun t => typeAverageSpec t.checklistItems) := by
    rw [List.map_map]
    exact List.map_congr_left fun t ht => recompute_avg_eq_spec t (h t ht)
  have hemp :
      (insp.types.map (fun t => typeAverageSpec t.checklistItems)).isEmpty
        = false := by
    rw [List.isEmpty_eq_false]
    simpa using hne
  show (if (insp.types.map recomputeTypeAverage).length > 0 then
      ratingSetter
        (((insp.types.map recomputeTypeAverage).foldl
            (fun acc t => acc + t.averageRating) 0)
          / ((insp.types.map recomputeTypeAverage).length : ℚ))
    else insp.overallRating) = overallRatingSpec insp.types
  rw [if_pos hlen]
  unfold overallRatingSpec ratingSetter
  dsimp only
  rw [foldl_add_average, zero_add, hmap, hemp]
  simp [List.length_map]

theorem saveInspection_ok (now : Nat) (insp : Inspection)
    (h : validateInspection insp = true) :
    saveInspection now insp = .ok (preSaveHook now insp) := by
  unfold saveInspection
  rw [if_pos h]

theorem erased_eq_same_items (insp2 insp : Inspection)
    (hsame : suppliedRatingsErased insp2 = suppliedRatingsErased insp) :
    insp2.types.map (fun t => t.checklistItems)
      = insp.types.map (fun t => t.checklistItems) := by
  have h1 := congrArg (fun i => i.types.map (fun t => t.checklistItems)) hsame
  simpa [suppliedRatingsErased, List.map_map] using h1

theorem typeAverageSpec_map_congr (l1 l2 : List TypeInspection)
    (h : l1.map (fun t => t.checklistItems)
      = l2.map (fun t => t.checklistItems)) :
    l1.map (fun t => typeAverageSpec t.checklistItems)
      = l2.map (fun t => typeAverageSpec t.checklistItems) := by
  have h2 := congrArg (List.map typeAverageSpec) h
  simpa [List.map_map] using h2

theorem overallRatingSpec_congr (l1 l2 : List TypeInspection)
    (h : l1.map (fun t => t.checklistItems)
      = l2.map (fun t => t.checklistItems)) :
    overallRatingSpec l1 = overallRatingSpec l2 := by
  unfold overallRatingSpec
  rw [typeAverageSpec_map_congr l1 l2 h]

/-! ## Claims about the rating engine -/

/-- C2: for every type block of an Inspection record being saved, the items
with status Not Checked or Not Applicable are excluded; the persisted
averageRating of each type equals the arithmetic mean of the included items'
ratings rounded to 2 decimal places, and equals 0 when every item of the
type is excluded — and in that case the save still succeeds (no error).
typeAverageSpec is the spec's algorithm stated in its own words. -/
theorem type_average_excludes_unchecked (insp : Inspection) (now : Nat)
    (h : validateInspection insp = true) :
    ∃ saved, saveInspection now insp = .ok saved ∧
      saved.types.map (fun t => t.averageRating)
        = insp.types.map (fun t => typeAverageSpec t.checklistItems) := by
  obtain ⟨_, hitems⟩ := validateInspection_parts insp h
  exact ⟨preSaveHook now insp, saveInspection_ok now insp h,
    preSaveHook_types_avg now insp hitems⟩

/-- C2 witness: the fixture with items [Excellent(5), Poor(1), Not Checked]
and an all-Not-Applicable type saves successfully with persisted type
averages 3.00 and 0.00. -/
theorem type_average_excludes_unchecked_witness :
    validateInspection exC2 = true ∧
    (∃ saved, saveInspection 0 exC2 = .ok saved ∧
      saved.types.map (fun t => t.averageRating)
        = exC2.types.map (fun t => typeAverageSpec t.checklistItems)) ∧
    exC2.types.map (fun t => typeAverageSpec t.checklistItems) = [3, 0] := by
  have hv : validateInspection exC2 = true := by
    simp only [validateInspection, validateTypeInspection,
      validateChecklistItem, exC2, inspEx, typeEx, itemEx, List.all_cons,
      List.all_nil, Bool.and_eq_true, decide_eq_true_eq]
    norm_num
  refine ⟨hv, type_average_excludes_unchecked exC2 0 hv, ?_⟩
  have hf1 : specIncludedItems
      [itemEx 1 .excellent 5, itemEx 2 .poor 1, itemEx 3 .notChecked 0]
      = [itemEx 1 .excellent 5, itemEx 2 .poor 1] := by decide
  have hf2 : specIncludedItems [itemEx 1 .notApplicable 0] = [] := by decide
  have e1 : typeAverageSpec
      [itemEx 1 .excellent 5, itemEx 2 .poor 1, itemEx 3 .notChecked 0]
      = 3 := by
    unfold typeAverageSpec
    rw [hf1]
    norm_num [itemEx, round2, jsRound]
  have e2 : typeAverageSpec [itemEx 1 .notApplicable 0] = 0 := by
    unfold typeAverageSpec
    rw [hf2]
    simp
  simp [exC2, inspEx, typeEx, e1, e2]

/-- C3: for every Inspection record being saved (validation admits only
records with at least one type), the persisted overallRating is the mean of
the per-type spec averages, each type weighted equally regardless of item
count, rounded to 2 decimal places; and a record with no types is rejected
by validation, so no record with no types is ever persisted (the spec's
no-types clause is vacuous over persisted records). -/
theorem overall_rating_type_weighted (insp : Inspection) (now : Nat)
    (h : validateInspection insp = true) :
    (∃ saved, saveInspection now insp = .ok saved ∧
      saved.overallRating = overallRatingSpec insp.types) ∧
    (∀ (j : Inspection) (now2 : Nat), j.types = [] →
      saveInspection now2 j = .error "ValidationError") := by
  obtain ⟨hne, hitems⟩ := validateInspection_parts insp h
  refine ⟨⟨preSaveHook now insp, saveInspection_ok now insp h,
    preSaveHook_overall now insp hne hitems⟩, ?_⟩
  intro j now2 hj
  unfold saveInspection
  rw [if_neg]
  simp [validateInspection, hj]

/-- C3 witness: one type averaging 5.00 (one item) and one type averaging
1.00 (three items) roll up to overall 3.00, confirming equal per-type
weighting. -/
theorem overall_rating_type_weighted_witness :
    validateInspection exC3 = true ∧
    ((∃ saved, saveInspection 0 exC3 = .ok saved ∧
      saved.overallRating = overallRatingSpec exC3.types) ∧
    (∀ (j : Inspection) (now2 : Nat), j.types = [] →
      saveInspection now2 j = .error "ValidationError")) ∧
    overallRatingSpec exC3.types = 3 := by
  have hv : validateInspection exC3 = true := by
    simp only [validateInspection, validateTypeInspection,
      validateChecklistItem, exC3, inspEx, typeEx, itemEx, List.all_cons,
      List.all_nil, Bool.and_eq_true, decide_eq_true_eq]
    norm_num
  refine ⟨hv, overall_rating_type_weighted exC3 0 hv, ?_⟩
  have hf1 : specIncludedItems [itemEx 1 .excellent 5]
      = [itemEx 1 .excellent 5] := by decide
  have hf2 : specIncludedItems
      [itemEx 1 .poor 1, itemEx 2 .poor 1, itemEx 3 .poor 1]
      = [itemEx 1 .poor 1, itemEx 2 .poor 1, itemEx 3 .poor 1] := by decide
  have e1 : typeAverageSpec [itemEx 1 .excellent 5] = 5 := by
    unfold typeAverageSpec
    rw [hf1]
    norm_num [itemEx, round2, jsRound]
  have e2 : typeAverageSpec
      [itemEx 1 .poor 1, itemEx 2 .poor 1, itemEx 3 .poor 1] = 1 := by
    unfold typeAverageSpec
    rw [hf2]
    norm_num [itemEx, round2, jsRound]
  unfold overallRatingSpec
  simp only [exC3, inspEx, typeEx, List.map_cons, List.map_nil, e1, e2]
  norm_num [round2, jsRound]

/-- C6: on every save the per-type averageRating values and the
overallRating are recomputed from the current checklist item data alone;
two valid documents that differ only in their client-supplied
averageRating / overallRating fields persist identical recomputed ratings,
so the supplied values are never trusted and always overwritten. -/
theorem ratings_recomputed_every_save (insp insp2 : Inspection) (now : Nat)
    (h : validateInspection insp = true)
    (h2 : validateInspection insp2 = true)
    (hsame : suppliedRatingsErased insp2 = suppliedRatingsErased insp) :
    ∃ saved saved2,
      saveInspection now insp = .ok saved ∧
      saveInspection now insp2 = .ok saved2 ∧
      saved.types.map (fun t => t.averageRating)
        = insp.types.map (fun t => typeAverageSpec t.checklistItems) ∧
      saved.overallRating = overallRatingSpec insp.types ∧
      saved2.types.map (fun t => t.averageRating)
        = saved.types.map (fun t => t.averageRating) ∧
      saved2.overallRating = saved.overallRating := by
  obtain ⟨hne, hitems⟩ := validateInspection_parts insp h
  obtain ⟨hne2, hitems2⟩ := validateInspection_parts insp2 h2
  have hsameitems := erased_eq_same_items insp2 insp hsame
  refine ⟨preSaveHook now insp, preSaveHook now insp2,
    saveInspection_ok now insp h, saveInspection_ok now insp2 h2,
    preSaveHook_types_avg now insp hitems,
    preSaveHook_overall now insp hne hitems, ?_, ?_⟩
  · rw [preSaveHook_types_avg now insp2 hitems2,
      preSaveHook_types_avg now insp hitems]
    exact typeAverageSpec_map_congr insp2.types insp.types hsameitems
  · rw [preSaveHook_overall now insp2 hne2 hitems2,
      preSaveHook_overall now insp hne hitems]
    exact overallRatingSpec_congr insp2.types insp.types hsameitems

/-- C6 witness: the same Good(4) item list supplied once with client ratings
(averageRating 1, overallRating 5) and once with (3, 2) persists the same
recomputed ratings both times. -/
theorem ratings_recomputed_every_save_witness :
    validateInspection exC6a = true ∧ validateInspection exC6b = true ∧
    suppliedRatingsErased exC6b = suppliedRatingsErased exC6a ∧
    (∃ saved saved2,
      saveInspection 0 exC6a = .ok saved ∧
      saveInspection 0 exC6b = .ok saved2 ∧
      saved.types.map (fun t => t.averageRating)
        = exC6a.types.map (fun t => typeAverageSpec t.checklistItems) ∧
      saved.overallRating = overallRatingSpec exC6a.types ∧
      saved2.types.map (fun t => t.averageRating)
        = saved.types.map (fun t => t.averageRating) ∧
      saved2.overallRating = saved.overallRating) := by
  have hva : validateInspection exC6a = true := by
    simp only [validateInspection, validateTypeInspection,
      validateChecklistItem, exC6a, inspEx, typeEx, itemEx, List.all_cons,
      List.all_nil, Bool.and_eq_true, decide_eq_true_eq]
    norm_num
  have hvb : validateInspection exC6b = true := by
    simp only [validateInspection, validateTypeInspection,
      validateChecklistItem, exC6b, inspEx, typeEx, itemEx, List.all_cons,
      List.all_nil, Bool.and_eq_true, decide_eq_true_eq]
    norm_num
  have hsame : suppliedRatingsErased exC6b = suppliedRatingsErased exC6a := by
    simp [suppliedRatingsErased, exC6a, exC6b, inspEx, typeEx, itemEx]
  exact ⟨hva, hvb, hsame,
    ratings_recomputed_every_save exC6a exC6b 0 hva hvb hsame⟩

/-! ## Helper lemmas: user store updates -/

theorem findUser_setAssigned_self (users : Users) (i : Nat) (b : Bool) :
    findUser (setAssigned users i b) i
      = (findUser users i).map (fun u => { u with is_assigned := b }) := by
  induction users with
  | nil => rfl
  | cons p ps ih =>
    by_cases hp : p.1 = i
    · simp [findUser, setAssigned, List.find?_cons, hp]
    · simp only [findUser, setAssigned, List.map_cons] at *
      rw [if_neg hp,
        List.find?_cons_of_neg _ (by simpa using hp),
        List.find?_cons_of_neg _ (by simpa using hp)]
      exact ih

theorem findUser_setAssigned_other (users : Users) (i j : Nat) (b : Bool)
    (h : j ≠ i) :
    findUser (setAssigned users i b) j = findUser users j := by
  induction users with
  | nil => rfl
  | cons p ps ih =>
    by_cases hp : p.1 = i
    · simp only [findUser, setAssigned, List.map_cons, if_pos hp]
      rw [List.find?_cons_of_neg _ (by simp [hp, Ne.symm h]),
        List.find?_cons_of_neg _ (by simp [hp, Ne.symm h])]
      exact ih
    · simp only [findUser, setAssigned, List.map_cons, if_neg hp]
      by_cases hj : p.1 = j
      · rw [List.find?_cons_of_pos _ (by simpa using hj),
          List.find?_cons_of_pos _ (by simpa using hj)]
      · rw [List.find?_cons_of_neg _ (by simpa using hj),
          List.find?_cons_of_neg _ (by simpa using hj)]
        exact ih

/-! ## Claims about the lifecycle operations -/

/-- C9: approveRequest with an admin caller succeeds exactly on a pending
request; on success its sole effect is stamping adminApprovedAt (status is
untouched — approval is an audit marker), and on any other status it fails
with the InvalidState error (BadRequestError in the code) whose message
names the current status, mutating nothing (the error return carries no
document and the source throws before any assignment). -/
theorem approve_pending_audit_only (role : Role) (r : Request) (now : Nat)
    (h : role = .admin) :
    (r.status = .pending →
      approveRequest role now r
        = .ok { r with adminApprovedAt := some now }) ∧
    (r.status ≠ .pending →
      approveRequest role now r = .error (.badRequest
        ("Request can only be approved when status is pending. Current status: "
          ++ reqStatusString r.status))) := by
  subst h
  constructor
  · intro hp
    unfold approveRequest
    rw [if_neg (by simp), if_neg (by simp [hp])]
  · intro hp
    unfold approveRequest
    rw [if_neg (by simp), if_pos hp]

/-- C9 witness: a fresh pending request is approved at time 11, gaining
exactly the adminApprovedAt stamp. -/
theorem approve_pending_audit_only_witness :
    ((freshRequest 7 "CAMRY_TOY_001").status = .pending →
      approveRequest .admin 11 (freshRequest 7 "CAMRY_TOY_001")
        = .ok { freshRequest 7 "CAMRY_TOY_001" with
                  adminApprovedAt := some 11 }) ∧
    ((freshRequest 7 "CAMRY_TOY_001").status ≠ .pending →
      approveRequest .admin 11 (freshRequest 7 "CAMRY_TOY_001")
        = .error (.badRequest
          ("Request can only be approved when status is pending. Current status: "
            ++ reqStatusString (freshRequest 7 "CAMRY_TOY_001").status))) :=
  approve_pending_audit_only .admin (freshRequest 7 "CAMRY_TOY_001") 11 rfl

/-- C10: on a request whose assignedInspectorId is unset, startInspection
never succeeds and raises neither NotFound nor Forbidden nor InvalidState:
the permission check dereferences the absent inspector reference, the
TypeError is caught and wrapped, and the call returns exactly the
DatabaseError — with no mutation, since the throw precedes every
assignment. -/
theorem start_null_inspector_database_error (r : Request) (uid now : Nat)
    (h : r.assignedInspectorId = none) :
    startInspection uid now r
      = .error (.database "Failed to start inspection request") := by
  unfold startInspection
  rw [h]

/-- C10 witness: starting a fresh, never-assigned pending request fails with
the DatabaseError wrapper. -/
theorem start_null_inspector_database_error_witness :
    startInspection 1 5 (freshRequest 7 "CAMRY_TOY_001")
      = .error (.database "Failed to start inspection request") :=
  start_null_inspector_database_error (freshRequest 7 "CAMRY_TOY_001") 1 5
    rfl

/-- Success equation of rejectRequest for an admin caller on a
not-yet-cancelled request, read off the source. -/
theorem rejectRequest_ok_eq (reason : Option String) (t : Nat) (r : Request)
    (users : Users) (hc : r.status ≠ .cancelled) :
    rejectRequest .admin reason t r users
      = .ok
          ({ r with
              status := .cancelled
              cancelledAt := some t
              cancelledReason :=
                if jsSlice 500 (jsTrim (reason.getD "")) = "" then none
                else some (jsSlice 500 (jsTrim (reason.getD ""))) },
            match r.assignedInspectorId with
            | some i => setAssigned users i false
            | none => users) := by
  unfold rejectRequest
  rw [if_neg (by simp), if_neg hc]

/-- C4 (amended): rejectRequest with an admin caller succeeds exactly when
the request is not already cancelled — the code guards only against
cancelled, so rejection also succeeds on a completed request and cancelled
is reachable from completed.  On success it sets status cancelled, stamps
cancelledAt, stores the trimmed reason capped at 500 characters (an empty
reason leaves the field unset), clears the assigned inspector's
availability flag when one was assigned, and a second rejection fails with
the already-cancelled InvalidState error, leaving cancelledAt at the first
rejection's timestamp. -/
theorem reject_guards_only_cancelled (role : Role) (r : Request)
    (users : Users) (reason reason2 : Option String) (t1 t2 : Nat)
    (h : role = .admin) :
    ((∃ p, rejectRequest role reason t1 r users = .ok p) ↔
      r.status ≠ .cancelled) ∧
    (r.status ≠ .cancelled →
      ∃ r1 users1,
        rejectRequest role reason t1 r users = .ok (r1, users1) ∧
        r1.status = .cancelled ∧
        r1.cancelledAt = some t1 ∧
        r1.cancelledReason
          = (if jsSlice 500 (jsTrim (reason.getD "")) = "" then none
             else some (jsSlice 500 (jsTrim (reason.getD "")))) ∧
        r1.assignedInspectorId = r.assignedInspectorId ∧
        (∀ i, r.assignedInspectorId = some i →
          users1 = setAssigned users i false) ∧
        (r.assignedInspectorId = none → users1 = users) ∧
        rejectRequest role reason2 t2 r1 users1
          = .error (.badRequest "Request is already cancelled") ∧
        r1.cancelledAt = some t1) ∧
    (r.status = .cancelled →
      rejectRequest role reason t1 r users
        = .error (.badRequest "Request is already cancelled")) := by
  subst h
  by_cases hc : r.status = .cancelled
  · refine ⟨?_, fun hne => absurd hc hne, fun _ => ?_⟩
    · rw [rejectRequest, if_neg (by simp), if_pos hc]
      simp [hc]
    · rw [rejectRequest, if_neg (by simp), if_pos hc]
  · rw [rejectRequest_ok_eq reason t1 r users hc]
    refine ⟨by simp [hc], fun _ => ?_, fun hcc => absurd hcc hc⟩
    refine ⟨_, _, rfl, rfl, rfl, rfl, rfl, ?_, ?_, ?_, rfl⟩
    · intro i hi
      rw [hi]
    · intro hi
      rw [hi]
    · rw [rejectRequest, if_neg (by simp), if_pos rfl]

/-- C4 counterexample: rejecting a completed request succeeds and moves it
to cancelled, contradicting both "succeeds exactly when the status is
non-terminal" and "cancelled is not reachable from completed". -/
theorem reject_on_completed_succeeds :
    c4Req.status = .completed ∧
    ((rejectRequest .admin (some " too late ") 9 c4Req usersAB).toOption.map
        (fun p => (p.1.status, p.1.cancelledAt, p.1.cancelledReason)))
      = some (.cancelled, some 9, some "too late") := by
  decide

/-- C4 witness: on a pending request carrying no inspector, rejection
succeeds with the stated effects and a second rejection fails. -/
theorem reject_guards_only_cancelled_witness :
    ((∃ p, rejectRequest .admin (some "dup") 4 (freshRequest 7 "X_UNK_005")
        usersAB = .ok p) ↔
      (freshRequest 7 "X_UNK_005").status ≠ .cancelled) ∧
    ((freshRequest 7 "X_UNK_005").status ≠ .cancelled →
      ∃ r1 users1,
        rejectRequest .admin (some "dup") 4 (freshRequest 7 "X_UNK_005")
            usersAB = .ok (r1, users1) ∧
        r1.status = .cancelled ∧
        r1.cancelledAt = some 4 ∧
        r1.cancelledReason
          = (if jsSlice 500 (jsTrim ((some "dup").getD "")) = "" then none
             else some (jsSlice 500 (jsTrim ((some "dup").getD "")))) ∧
        r1.assignedInspectorId
          = (freshRequest 7 "X_UNK_005").assignedInspectorId ∧
        (∀ i, (freshRequest 7 "X_UNK_005").assignedInspectorId = some i →
          users1 = setAssigned usersAB i false) ∧
        ((freshRequest 7 "X_UNK_005").assignedInspectorId = none →
          users1 = usersAB) ∧
        rejectRequest .admin none 6 r1 users1
          = .error (.badRequest "Request is already cancelled") ∧
        r1.cancelledAt = some 4) ∧
    ((freshRequest 7 "X_UNK_005").status = .cancelled →
      rejectRequest .admin (some "dup") 4 (freshRequest 7 "X_UNK_005")
          usersAB
        = .error (.badRequest "Request is already cancelled")) :=
  reject_guards_only_cancelled .admin (freshRequest 7 "X_UNK_005") usersAB
    (some "dup") none 4 6 rfl

/-- Success equation of assignInspector for an admin caller and a present,
active inspector, read off the source. -/
theorem assignInspector_ok_eq (iid : Nat) (inspector : UserRec) (now : Nat)
    (r : Request) (users : Users)
    (hfind : findUser users iid = some inspector)
    (hrole : inspector.role = .inspector)
    (hactive : inspector.status = .active) :
    assignInspector .admin (some iid) now r users
      = .ok
          ({ r with
              assignedInspectorId := some iid
              assignedAt := some now
              status := if r.status = .pending then .assigned
                        else r.status },
            setAssigned
              (match r.assignedInspectorId with
                | some prev =>
                    if prev ≠ iid then setAssigned users prev false
                    else users
                | none => users)
              iid true) := by
  unfold assignInspector
  rw [if_neg (by simp)]
  dsimp only
  rw [hfind]
  dsimp only
  rw [if_neg (by simp [hrole]), if_neg (by simp [hactive])]

/-- C5 (amended): assignInspector with an admin caller validates only the
target inspector — existence, role inspector, status active — and never
consults the request's status, so assignment succeeds from every status,
terminal ones included (the original "and only from non-terminal statuses"
fails).  On success the previously assigned different inspector is freed
and the new inspector is marked busy, assignedInspector and assignedAt are
set, a pending request advances to assigned and any other status is left
unchanged. -/
theorem assign_validates_only_inspector (role : Role) (r : Request)
    (users : Users) (iid : Nat) (inspector : UserRec) (now : Nat)
    (h : role = .admin) (hfind : findUser users iid = some inspector)
    (hrole : inspector.role = .inspector)
    (hactive : inspector.status = .active) :
    ∃ users1,
      assignInspector role (some iid) now r users
        = .ok ({ r with
                  assignedInspectorId := some iid
                  assignedAt := some now
                  status := if r.status = .pending then .assigned
                            else r.status },
                users1) ∧
      findUser users1 iid = some { inspector with is_assigned := true } ∧
      (∀ prev pRec, r.assignedInspectorId = some prev → prev ≠ iid →
        findUser users prev = some pRec →
        findUser users1 prev
          = some { pRec with is_assigned := false }) := by
  subst h
  refine ⟨_, assignInspector_ok_eq iid inspector now r users hfind hrole
    hactive, ?_, ?_⟩
  · rw [findUser_setAssigned_self]
    cases hprev : r.assignedInspectorId with
    | none => rw [hfind]; rfl
    | some prev =>
      dsimp only
      by_cases hpi : prev = iid
      · simp only [hpi]
        rw [if_neg (by simp)]
        rw [hfind]
        rfl
      · rw [if_pos (by simpa using hpi)]
        rw [findUser_setAssigned_other users prev iid false
          (by simpa using Ne.symm hpi)]
        rw [hfind]
        rfl
  · intro prev pRec hprev hpi hpfind
    rw [hprev]
    dsimp only
    rw [if_pos (by simpa using hpi)]
    rw [findUser_setAssigned_other _ iid prev true hpi]
    rw [findUser_setAssigned_self users prev false, hpfind]
    rfl

/-- C5 counterexample: assigning a valid active inspector to a cancelled
(terminal) request succeeds, contradicting "allowed ... and only from
non-terminal statuses". -/
theorem assign_on_cancelled_succeeds :
    c5Req.status = .cancelled ∧
    ((assignInspector .admin (some 2) 9 c5Req usersAB).toOption.map
        (fun p => (p.1.status, p.1.assignedInspectorId)))
      = some (.cancelled, some 2) := by
  decide

/-- C5 witness: reassigning a request held by inspector 1 to inspector 2
frees 1 and marks 2 busy. -/
theorem assign_validates_only_inspector_witness :
    ∃ users1,
      assignInspector .admin (some 2) 12 c5AssignedReq usersAB
        = .ok ({ c5AssignedReq with
                  assignedInspectorId := some 2
                  assignedAt := some 12
                  status := if c5AssignedReq.status = .pending then .assigned
                            else c5AssignedReq.status },
                users1) ∧
      findUser users1 2
        = some { (⟨.inspector, .active, false⟩ : UserRec) with
                  is_assigned := true } ∧
      (∀ prev pRec, c5AssignedReq.assignedInspectorId = some prev →
        prev ≠ 2 →
        findUser usersAB prev = some pRec →
        findUser users1 prev
          = some { pRec with is_assigned := false }) :=
  assign_validates_only_inspector .admin c5AssignedReq usersAB 2
    ⟨.inspector, .active, false⟩ 12 rfl (by decide) rfl rfl

/-! ## Helper lemmas: operation shapes for the reachability invariant -/

theorem assignInspector_ok_shape (role : Role) (body : Option Nat)
    (now : Nat) (r : Request) (users : Users) (p : Request × Users)
    (h : assignInspector role body now r users = .ok p) :
    (∃ iid, p.1.assignedInspectorId = some iid) ∧
    p.1.status = (if r.status = .pending then .assigned else r.status) := by
  unfold assignInspector at h
  split at h
  · exact absurd h (by simp)
  · cases body with
    | none => exact absurd h (by simp)
    | some iid =>
      dsimp only at h
      rcases hf : findUser users iid with _ | inspector
      · rw [hf] at h
        exact absurd h (by simp)
      · rw [hf] at h
        dsimp only at h
        split at h
        · exact absurd h (by simp)
        · split at h
          · exact absurd h (by simp)
          · rw [Except.ok.injEq] at h
            subst h
            exact ⟨⟨iid, rfl⟩, rfl⟩

theorem approveRequest_ok_shape (role : Role) (now : Nat) (r r' : Request)
    (h : approveRequest role now r = .ok r') :
    r'.status = r.status
      ∧ r'.assignedInspectorId = r.assignedInspectorId := by
  unfold approveRequest at h
  split at h
  · exact absurd h (by simp)
  · split at h
    · exact absurd h (by simp)
    · rw [Except.ok.injEq] at h
      subst h
      exact ⟨rfl, rfl⟩

theorem rejectRequest_ok_shape (role : Role) (reason : Option String)
    (now : Nat) (r : Request) (users : Users) (p : Request × Users)
    (h : rejectRequest role reason now r users = .ok p) :
    p.1.status = .cancelled := by
  unfold rejectRequest at h
  split at h
  · exact absurd h (by simp)
  · split at h
    · exact absurd h (by simp)
    · dsimp only at h
      rw [Except.ok.injEq] at h
      subst h
      rfl

theorem startInspection_ok_shape (uid now : Nat) (r r' : Request)
    (h : startInspection uid now r = .ok r') :
    r'.status = .inProgress
      ∧ r'.assignedInspectorId = r.assignedInspectorId
      ∧ r.assignedInspectorId ≠ none := by
  unfold startInspection at h
  rcases hins : r.assignedInspectorId with _ | iid
  · rw [hins] at h
    exact absurd h (by simp)
  · rw [hins] at h
    dsimp only at h
    split at h
    · exact absurd h (by simp)
    · split at h
      · exact absurd h (by simp)
      · rw [Except.ok.injEq] at h
        subst h
        exact ⟨rfl, rfl, by simp [hins]⟩

theorem reqInv_applyOp (s : SvcState) (op : LifecycleOp)
    (h : ReqInv s.request) : ReqInv (applyOp s op).request := by
  cases op with
  | assignOp role body now =>
    dsimp only [applyOp]
    cases hres : assignInspector role body now s.request s.users with
    | error e => exact h
    | ok p =>
      obtain ⟨r1, u1⟩ := p
      obtain ⟨⟨iid, hiid⟩, hstat⟩ :=
        assignInspector_ok_shape role body now s.request s.users _ hres
      dsimp only at hiid hstat
      constructor
      · intro _
        simp [hiid]
      · intro hpend
        rw [hstat] at hpend
        split at hpend
        · exact absurd hpend (by simp)
        · exact absurd hpend (by assumption)
  | approveOp role now =>
    dsimp only [applyOp]
    cases hres : approveRequest role now s.request with
    | error e => exact h
    | ok r1 =>
      obtain ⟨hstat, hins⟩ := approveRequest_ok_shape role now s.request _
        hres
      constructor
      · intro htrip
        rw [hins]
        exact h.1 (by rwa [hstat] at htrip)
      · intro hpend
        rw [hins]
        exact h.2 (by rwa [hstat] at hpend)
  | rejectOp role reason now =>
    dsimp only [applyOp]
    cases hres : rejectRequest role reason now s.request s.users with
    | error e => exact h
    | ok p =>
      obtain ⟨r1, u1⟩ := p
      have hcanc := rejectRequest_ok_shape role reason now s.request s.users
        _ hres
      dsimp only at hcanc
      constructor
      · intro htrip
        rw [hcanc] at htrip
        rcases htrip with h' | h' | h' <;> exact absurd h' (by simp)
      · intro hpend
        rw [hcanc] at hpend
        exact absurd hpend (by simp)
  | startOp uid now =>
    dsimp only [applyOp]
    cases hres : startInspection uid now s.request with
    | error e => exact h
    | ok r1 =>
      obtain ⟨hstat, hins, hne⟩ := startInspection_ok_shape uid now
        s.request _ hres
      constructor
      · intro _
        rw [hins]
        exact hne
      · intro hpend
        rw [hstat] at hpend
        exact absurd hpend (by simp)
  | submitOp uid oid st =>
    dsimp only [applyOp]
    unfold linkInspectionOnCreate
    split
    · next hcond =>
      split
      · constructor
        · intro _
          simp [hcond.1]
        · intro hpend
          exact absurd hpend (by simp)
      · constructor
        · intro _
          simp [hcond.1]
        · intro hpend
          have h0 := hcond.1
          rw [h.2 hpend] at h0
          exact Option.noConfusion h0
    · exact h

theorem reqInv_runOps (s : SvcState) (ops : List LifecycleOp)
    (h : ReqInv s.request) : ReqInv (runOps s ops).request := by
  induction ops generalizing s with
  | nil => exact h
  | cons op rest ih => exact ih (applyOp s op) (reqInv_applyOp s op h)

/-- C1 (amended): over every request state reachable from createRequest by
any sequence of lifecycle operations, the provable half of the invariant
holds: a request in status assigned, in_progress or completed always has a
non-null assignedInspector, and a pending request never has one.  The
original iff fails in the other direction: a cancelled request can retain
its inspector reference, because rejectRequest clears only the inspector's
availability flag and assignInspector also succeeds on terminal requests
(see the counterexample). -/
theorem assigned_inspector_invariant_amended (userId : Nat) (rid : String)
    (users : Users) (ops : List LifecycleOp) :
    ReqInv (runOps ⟨freshRequest userId rid, users⟩ ops).request := by
  have h0 : ReqInv (freshRequest userId rid) := by
    constructor
    · intro hc
      rcases hc with h | h | h <;> exact absurd h (by simp [freshRequest])
    · intro _
      rfl
  exact reqInv_runOps _ ops h0

/-- C1 counterexample: after create, assign inspector 1, reject, the request
is cancelled yet still references inspector 1, so "assignedInspector is
non-null iff status ∈ {assigned, in_progress, completed}" is false on this
reachable state. -/
theorem cancelled_request_retains_inspector :
    c1Trace.request.status = .cancelled ∧
    c1Trace.request.assignedInspectorId = some 1 ∧
    ¬(c1Trace.request.assignedInspectorId ≠ none ↔
      (c1Trace.request.status = .assigned ∨
        c1Trace.request.status = .inProgress ∨
        c1Trace.request.status = .completed)) := by
  decide

/-- C1 witness: the amended invariant instantiated on a concrete trace that
assigns inspector 1 and starts the inspection. -/
theorem assigned_inspector_invariant_amended_witness :
    ReqInv (runOps ⟨freshRequest 7 "CAMRY_TOY_009", usersAB⟩
      [.assignOp .admin (some 1) 10, .startOp 1 20]).request :=
  assigned_inspector_invariant_amended 7 "CAMRY_TOY_009" usersAB
    [.assignOp .admin (some 1) 10, .startOp 1 20]

/-! ## Helper lemmas: the ID generator -/

theorem digitChar_isDigit : ∀ m, m < 10 → (Nat.digitChar m).isDigit = true := by
  decide

theorem natDecimalAux_digits (fuel : Nat) :
    ∀ n, ∀ c ∈ natDecimalAux fuel n, c.isDigit = true := by
  induction fuel with
  | zero =>
    intro n c hc
    simp [natDecimalAux] at hc
  | succ fuel ih =>
    intro n c hc
    unfold natDecimalAux at hc
    split at hc
    · next h10 =>
      simp only [List.mem_singleton] at hc
      subst hc
      exact digitChar_isDigit n h10
    · next h10 =>
      rcases List.mem_append.mp hc with h1 | h2
      · exact ih _ c h1
      · simp only [List.mem_singleton] at h2
        subst h2
        exact digitChar_isDigit _ (Nat.mod_lt _ (by omega))

theorem find?_map_update (name : String) (cs : Counters) (p : String × Nat)
    (hf : List.find? (fun q => q.1 = name) cs = some p) :
    List.find? (fun q => q.1 = name)
        (List.map (fun q => if q.1 = name then (q.1, q.2 + 1) else q) cs)
      = some (p.1, p.2 + 1) := by
  induction cs with
  | nil => simp at hf
  | cons a tl ih =>
    by_cases ha : a.1 = name
    · rw [List.find?_cons_of_pos _ (by simpa using ha)] at hf
      rw [Option.some.injEq] at hf
      subst hf
      rw [List.map_cons, if_pos ha,
        List.find?_cons_of_pos _ (by simpa using ha)]
    · rw [List.find?_cons_of_neg _ (by simpa using ha)] at hf
      rw [List.map_cons, if_neg ha,
        List.find?_cons_of_neg _ (by simpa using ha)]
      exact ih hf

theorem getNextSequence_spec (cs : Counters) (name : String) :
    (getNextSequence cs name).1 = counterValue cs name + 1 ∧
    counterValue (getNextSequence cs name).2 name
      = counterValue cs name + 1 := by
  unfold getNextSequence counterValue
  cases hf : List.find? (fun p => p.1 = name) cs with
  | none =>
    dsimp only
    refine ⟨rfl, ?_⟩
    rw [List.find?_cons_of_pos _ (by simp)]
  | some p =>
    dsimp only
    refine ⟨rfl, ?_⟩
    rw [find?_map_update name cs p hf]

theorem issueSeqs_eq (k : Nat) :
    ∀ cs : Counters, issueSeqs cs k
      = (List.range k).map
          (fun i => counterValue cs "inspectionRequest" + i + 1) := by
  induction k with
  | zero => intro cs; rfl
  | succ k ih =>
    intro cs
    obtain ⟨h1, h2⟩ := getNextSequence_spec cs "inspectionRequest"
    show (getNextSequence cs "inspectionRequest").1
        :: issueSeqs (getNextSequence cs "inspectionRequest").2 k = _
    rw [ih]
    simp only [h1, h2]
    rw [List.range_succ_eq_map, List.map_cons, List.map_map]
    simp only [List.cons.injEq]
    refine ⟨by trivial, List.map_congr_left fun i _ => ?_⟩
    simp only [Function.comp_apply]
    omega

theorem issueSeqs_pairwise (cs : Counters) (k : Nat) :
    List.Pairwise (· < ·) (issueSeqs cs k) := by
  rw [issueSeqs_eq]
  exact List.Pairwise.map _ (fun a b hab => by omega)
    (List.pairwise_lt_range k)

theorem sanitizeModel_shape (model : String) :
    sanitizeModel model = "UNK" ∨
    (sanitizeModel model
        = String.mk (((jsUpper model).data.filter keepUpperAlnum).take 20) ∧
      ((jsUpper model).data.filter keepUpperAlnum).take 20 ≠ []) := by
  by_cases hm : model = ""
  · subst hm
    left
    decide
  · unfold sanitizeModel
    rw [if_neg hm]
    dsimp only
    split
    · exact Or.inl rfl
    · next hne =>
      right
      refine ⟨rfl, fun hnil => hne ?_⟩
      rw [hnil]

/-! ## Claim about the sequential ID generator -/

/-- C7: the generated identifier decomposes as MODEL_MAKE3_SEQ3, where MODEL
is the vehicle model sanitised to uppercase alphanumerics, at most 20
characters, never empty and defaulting to UNK; MAKE3 has exactly 3
characters and is the uppercased make's first 3 characters when the make is
long enough (padded with X otherwise); SEQ3 is the zero-padded width-3
decimal rendering of the sequence number, all digits; successive draws from
the counter are strictly increasing; the counter state advance is
independent of the vehicle (one global inspectionRequest counter); and make
Toyota, model Camry yields CAMRY_TOY_ followed by the digit block. -/
theorem generate_request_id_format (v : VehicleInfo) (sequence : Nat)
    (cs : Counters) (k : Nat) :
    (generateRequestId sequence v).data
        = (sanitizeModel v.model).data ++ '_' :: (makeCode v.make).data
          ++ '_' :: (seqCode sequence).data ∧
    (sanitizeModel v.model).length ≤ 20 ∧
    sanitizeModel v.model ≠ "" ∧
    (v.model = "" → sanitizeModel v.model = "UNK") ∧
    (∀ c ∈ (sanitizeModel v.model).data, keepUpperAlnum c = true) ∧
    (makeCode v.make).length = 3 ∧
    (v.make ≠ "" → 3 ≤ v.make.length →
      (makeCode v.make).data = (jsUpper v.make).data.take 3) ∧
    (seqCode sequence).length = max 3 (natDecimal sequence).length ∧
    (∀ c ∈ (seqCode sequence).data, c.isDigit = true) ∧
    List.Pairwise (· < ·) (issueSeqs cs k) ∧
    (∀ v2 : VehicleInfo,
      (getNextRequestId cs v2).2 = (getNextRequestId cs v).2) ∧
    (generateRequestId sequence ⟨"Toyota", "Camry"⟩).data
      = "CAMRY_TOY_".data ++ (seqCode sequence).data := by
  have hdata : ∀ a b : String, (a ++ b).data = a.data ++ b.data :=
    String.data_append
  have hu : ("_" : String).data = ['_'] := rfl
  refine ⟨?_, ?_, ?_, ?_, ?_, ?_, ?_, ?_, ?_, issueSeqs_pairwise cs k,
    fun _ => rfl, ?_⟩
  · unfold generateRequestId
    simp [hdata, hu]
  · rcases sanitizeModel_shape v.model with h | ⟨h, _⟩
    · rw [h]
      decide
    · rw [h]
      show (List.take 20 _).length ≤ 20
      rw [List.length_take]
      exact min_le_left _ _
  · rcases sanitizeModel_shape v.model with h | ⟨h, hne⟩
    · rw [h]
      decide
    · rw [h]
      intro heq
      apply hne
      have hdd := congrArg String.data heq
      simpa using hdd
  · intro h
    rw [h]
    decide
  · rcases sanitizeModel_shape v.model with h | ⟨h, _⟩
    · rw [h]
      decide
    · rw [h]
      intro c hc
      exact List.of_mem_filter (List.mem_of_mem_take hc)
  · unfold makeCode
    dsimp only
    show (_ ++ List.replicate _ 'X').length = 3
    rw [List.length_append, List.length_replicate, List.length_take]
    omega
  · intro h1 h2
    unfold makeCode
    rw [if_neg h1]
    dsimp only
    have hlen : ((jsUpper v.make).data.take 3).length = 3 := by
      rw [List.length_take]
      have hul : (jsUpper v.make).data.length = v.make.length := by
        show (v.make.data.map Char.toUpper).length = v.make.data.length
        rw [List.length_map]
      omega
    show (jsUpper v.make).data.take 3
        ++ List.replicate (3 - ((jsUpper v.make).data.take 3).length) 'X'
      = (jsUpper v.make).data.take 3
    rw [hlen]
    simp
  · unfold seqCode
    dsimp only
    show (List.replicate _ '0' ++ natDecimal sequence).length = _
    rw [List.length_append, List.length_replicate]
    omega
  · intro c hc
    rcases List.mem_append.mp hc with h1 | h2
    · rw [List.eq_of_mem_replicate h1]
      decide
    · exact natDecimalAux_digits _ _ c h2
  · have h1 : sanitizeModel "Camry" = "CAMRY" := by decide
    have h2 : makeCode "Toyota" = "TOY" := by decide
    unfold generateRequestId
    dsimp only
    rw [h1, h2]
    simp only [hdata, hu]
    simp [List.append_assoc]

/-- C7 witness: the format theorem instantiated at make Toyota, model Camry,
sequence 1 and an empty counter store over 3 draws; in particular
generateRequestId 1 yields CAMRY_TOY_001. -/
theorem generate_request_id_format_witness :
    ((generateRequestId 1 ⟨"Toyota", "Camry"⟩).data
        = (sanitizeModel "Camry").data ++ '_' :: (makeCode "Toyota").data
          ++ '_' :: (seqCode 1).data ∧
      (sanitizeModel "Camry").length ≤ 20 ∧
      sanitizeModel "Camry" ≠ "" ∧
      (("Camry" : String) = "" → sanitizeModel "Camry" = "UNK") ∧
      (∀ c ∈ (sanitizeModel "Camry").data, keepUpperAlnum c = true) ∧
      (makeCode "Toyota").length = 3 ∧
      (("Toyota" : String) ≠ "" → 3 ≤ ("Toyota" : String).length →
        (makeCode "Toyota").data = (jsUpper "Toyota").data.take 3) ∧
      (seqCode 1).length = max 3 (natDecimal 1).length ∧
      (∀ c ∈ (seqCode 1).data, c.isDigit = true) ∧
      List.Pairwise (· < ·) (issueSeqs [] 3) ∧
      (∀ v2 : VehicleInfo,
        (getNextRequestId [] v2).2
          = (getNextRequestId [] ⟨"Toyota", "Camry"⟩).2) ∧
      (generateRequestId 1 ⟨"Toyota", "Camry"⟩).data
        = "CAMRY_TOY_".data ++ (seqCode 1).data) ∧
    generateRequestId 1 ⟨"Toyota", "Camry"⟩ = "CAMRY_TOY_001" :=
  ⟨generate_request_id_format ⟨"Toyota", "Camry"⟩ 1 [] 3, by decide⟩

/-! ## Claim about the createRequest retry loop -/

/-- C8: the duplicate-key retry of createRequest is broken and Conflict is
never raised.  First conjunct: with the very first create colliding on
requestId and every subsequent create free to succeed, creation nevertheless
fails with the DatabaseError wrapper — the retry branch throws a TypeError
by assigning to the const requestId binding before it can issue its second
create.  Second conjunct: no execution of the embedded createRequest, under
any database behaviour, ever returns a ConflictError. -/
theorem create_request_retry_broken :
    createRequestCore (fun i => if i = 0 then .dupRequestId else .success)
        [] ⟨"Toyota", "Camry"⟩
      = .error (.databaseError "Failed to create inspection request") ∧
    (∀ (outcomes : Nat → CreateOutcome) (cs : Counters) (v : VehicleInfo)
        (msg : String),
      createRequestCore outcomes cs v
        ≠ .error (.conflictError msg)) := by
  constructor
  · rfl
  · intro outcomes cs v msg
    cases h0 : outcomes 0 with
    | success => simp [createRequestCore, createLoop, h0]
    | dupRequestId => simp [createRequestCore, createLoop, h0]
    | otherFailure => simp [createRequestCore, createLoop, h0]

end Autoscope
